import Mathlib

/-!
Shallow embedding of the streaming-accumulation core of the mirascope
repository.

Embedded source files:
* `mirascope/core/base/stream.py` — `BaseStream.__iter__`, the accumulator
  loop that folds chunks into running state and assembles the assistant
  message parameter when the underlying stream is exhausted.
* `mirascope/core/groq/stream.py` — `GroqStream`: the `cost` property,
  `_construct_message_param`, and `construct_call_response` (the builder).

Parts of the repository that the claims depend on but whose source is not
available (`mirascope/core/base/_stream.py` tool-call/usage accumulation and
`mirascope/core/groq/_utils.calculate_cost`) are modelled from the spec and
marked as such in their doc comments.
-/

namespace Mirascope

/-- The finish-reason literals of the Groq chat SDK
(`Literal["stop", "length", "tool_calls", "content_filter", "function_call"]`),
the values that can appear in `self.finish_reasons` on a consumed stream. -/
inductive FinishReason where
  | stop
  | length
  | tool_calls
  | content_filter
  | function_call
deriving DecidableEq, Repr

/-- The string each finish-reason literal denotes in the Python source. -/
def FinishReason.toStr : FinishReason → String
  | .stop => "stop"
  | .length => "length"
  | .tool_calls => "tool_calls"
  | .content_filter => "content_filter"
  | .function_call => "function_call"

/-- One tool-call delta carried by a chunk: the target slot index, an
optional call id, and optional name / JSON-argument fragments to append. -/
structure ToolCallDelta where
  index : Nat
  id : Option String
  nameFragment : Option String
  argsFragment : Option String
deriving DecidableEq, Repr

/-- One adapted response chunk, as read by the accumulator loop:
`chunk.content` (text delta, possibly empty), `chunk.tool_calls` deltas,
`chunk.finish_reasons` contribution, `chunk.usage` (input/output tokens),
`chunk.cost`, and `chunk.user_message_param`. -/
structure Chunk where
  content : String
  tool_call_deltas : List ToolCallDelta
  finish_reason : Option FinishReason
  usage : Option (Nat × Nat)
  cost : Option ℚ
  user_message_param : Option String
deriving DecidableEq, Repr

/-- A chunk that carries nothing: empty content delta and no metadata. -/
def Chunk.empty : Chunk :=
  { content := "", tool_call_deltas := [], finish_reason := none,
    usage := none, cost := none, user_message_param := none }

/-- The assistant message parameter assembled at the end of
`BaseStream.__iter__` in `base/stream.py`: `{"role": "assistant"}` plus
either a `"message"` or a `"content"` key holding the accumulated text
(whichever key is absent from the dict is `none` here). -/
structure AssistantMessageParam where
  role : String
  content : Option String
  message : Option String
deriving DecidableEq, Repr

/-- The attributes of a `BaseStream` object (`base/stream.py`) touched by
`__iter__`, together with the loop-local `content` accumulator:
`cost` and `user_message_param` start as the class defaults `None`,
`message_param` is unset (`none`) until the loop completes. -/
structure BaseStreamState where
  content : String
  cost : Option ℚ
  user_message_param : Option String
  message_param : Option AssistantMessageParam
deriving DecidableEq, Repr

/-- The state of a `BaseStream` before any chunk has been consumed. -/
def initState : BaseStreamState :=
  { content := "", cost := none, user_message_param := none,
    message_param := none }

/-- One iteration of the `for chunk in self.stream` loop in
`BaseStream.__iter__` (`base/stream.py`, lines 57-64):
`self.user_message_param = chunk.user_message_param` (unconditional),
`content += chunk.content`, and
`if chunk.cost is not None: self.cost = chunk.cost`. -/
def consumeChunk (s : BaseStreamState) (c : Chunk) : BaseStreamState :=
  { s with
    user_message_param := c.user_message_param,
    content := s.content ++ c.content,
    cost := match c.cost with
      | some v => some v
      | none => s.cost }

/-- Folding the loop body over a list of chunks. -/
def consumeAll (s : BaseStreamState) (chunks : List Chunk) : BaseStreamState :=
  chunks.foldl consumeChunk s

/-- End of `BaseStream.__iter__` (`base/stream.py`, lines 65-70): build
`kwargs = {"role": "assistant"}` and put the accumulated text under the
`"message"` key when the message-param type annotates one, else under
`"content"`. -/
def finalizeMessageParam (usesMessageKey : Bool) (content : String) :
    AssistantMessageParam :=
  if usesMessageKey then
    { role := "assistant", content := none, message := some content }
  else
    { role := "assistant", content := some content, message := none }

/-- A complete run of `BaseStream.__iter__`: consume every chunk of the
stream, then set `self.message_param`. -/
def runIter (usesMessageKey : Bool) (chunks : List Chunk) : BaseStreamState :=
  let s := consumeAll initState chunks
  { s with message_param := some (finalizeMessageParam usesMessageKey s.content) }

/-- The ordered concatenation of the content deltas of a chunk list. -/
def contentConcat : List Chunk → String
  | [] => ""
  | c :: cs => c.content ++ contentConcat cs

/-- One accumulator-owned tool-call slot: optional call id, incrementally
built name, incrementally built JSON-arguments buffer. -/
structure ToolCallSlot where
  id : Option String
  name : String
  argumentsBuffer : String
deriving DecidableEq, Repr

/-- Modelled from the spec: applying one tool-call delta to an existing
slot, from step 2 of `consume` in `base/_stream.py` (not under the
available sources): append the name fragment (if present) to the slot's
name, append the arguments fragment (if present) to its arguments buffer,
and record `id` only the first time it appears (first write wins). -/
def updateSlot (s : ToolCallSlot) (d : ToolCallDelta) : ToolCallSlot :=
  { id := match s.id with
      | some i => some i
      | none => d.id,
    name := s.name ++ d.nameFragment.getD "",
    argumentsBuffer := s.argumentsBuffer ++ d.argsFragment.getD "" }

/-- Modelled from the spec: the slot created when a delta's index is seen
for the first time (creation establishes insertion order). -/
def newSlot (d : ToolCallDelta) : ToolCallSlot :=
  { id := d.id, name := d.nameFragment.getD "",
    argumentsBuffer := d.argsFragment.getD "" }

/-- Modelled from the spec: the slot table is an insertion-ordered mapping
from index to slot; a delta updates the slot at its index in place, or
appends a fresh slot at the end when the index is new. -/
def applyDelta : List (Nat × ToolCallSlot) → ToolCallDelta → List (Nat × ToolCallSlot)
  | [], d => [(d.index, newSlot d)]
  | (i, s) :: rest, d =>
      if i = d.index then (i, updateSlot s d) :: rest
      else (i, s) :: applyDelta rest d

/-- Folding a sequence of tool-call deltas into the slot table. -/
def applyDeltas (slots : List (Nat × ToolCallSlot)) (ds : List ToolCallDelta) :
    List (Nat × ToolCallSlot) :=
  ds.foldl applyDelta slots

/-- Modelled from the spec: step 4 of `consume` in `base/_stream.py` (not
under the available sources): when a chunk carries a usage delta, overwrite
the stored input/output token counts with it (last write wins); chunks
without usage leave them unchanged. -/
def consumeUsage (tokens : Option Nat × Option Nat) (c : Chunk) :
    Option Nat × Option Nat :=
  match c.usage with
  | some (i, o) => (some i, some o)
  | none => tokens

/-- Folding usage accumulation over a chunk list. -/
def consumeUsageAll (tokens : Option Nat × Option Nat) (chunks : List Chunk) :
    Option Nat × Option Nat :=
  chunks.foldl consumeUsage tokens

/-- The indices of a list in first-seen order: an index already seen is
skipped, a new index is kept at its first position. -/
def firstSeenAux (seen : List Nat) : List Nat → List Nat
  | [] => []
  | i :: rest =>
      if i ∈ seen then firstSeenAux seen rest
      else i :: firstSeenAux (i :: seen) rest

/-- First-seen-order deduplication starting from no seen indices. -/
def firstSeen (l : List Nat) : List Nat :=
  firstSeenAux [] l

/-- The assistant message parameter built by
`GroqStream._construct_message_param` (`groq/stream.py`, lines 43-54):
`content` is the `content` key's value (the key is always written, possibly
holding `None`), `tool_calls` is `none` when the key is absent. -/
structure GroqMessageParam where
  role : String
  content : Option String
  tool_calls : Option (List (Nat × ToolCallSlot))
deriving DecidableEq, Repr

/-- `GroqStream._construct_message_param` (`groq/stream.py`, lines 43-54):
always sets `role="assistant"` and `content=content`; sets the
`tool_calls` key only when the tool-call list is truthy (non-empty). -/
def construct_message_param (tool_calls : Option (List (Nat × ToolCallSlot)))
    (content : Option String) : GroqMessageParam :=
  let base : GroqMessageParam :=
    { role := "assistant", content := content, tool_calls := none }
  match tool_calls with
  | some l => if l ≠ [] then { base with tool_calls := some l } else base
  | none => base

/-- The stream-level state `GroqStream.construct_call_response` reads:
`message_param` (set only once the stream is fully consumed),
`finish_reasons`, token counts, model, id, and the per-chunk accumulated
`cost` attribute. -/
structure GroqStreamState where
  message_param : Option GroqMessageParam
  finish_reasons : List FinishReason
  input_tokens : Option Nat
  output_tokens : Option Nat
  model : String
  id : Option String
  cost : Option ℚ
deriving DecidableEq, Repr

/-- The errors the builder can raise; `emptyStream` models the `ValueError`
("No stream response, check if the stream has been consumed.") raised by
`construct_call_response`, the spec's `EmptyStreamError`. -/
inductive StreamError where
  | emptyStream
deriving DecidableEq, Repr

/-- The finish-reason selection in `construct_call_response`
(`groq/stream.py`, lines 72-74): `self.finish_reasons[0] if
self.finish_reasons and self.finish_reasons[0] else "stop"` — the first
accumulated reason when the list is non-empty and its first entry is
truthy (a non-empty string), else `"stop"`. -/
def selectFinishReason (finish_reasons : List String) : String :=
  match finish_reasons with
  | [] => "stop"
  | f :: _ => if f ≠ "" then f else "stop"

/-- The message dict and choice assembled by `construct_call_response`:
`content` is `self.message_param.get("content", "")` (the stored value —
the `content` key is always present on a message param built by
`construct_message_param`), `tool_calls` is
`self.message_param.get("tool_calls", [])`. -/
structure GroqChoiceMessage where
  role : String
  content : Option String
  tool_calls : List (Nat × ToolCallSlot)
deriving DecidableEq, Repr

/-- The fields of the final `ChatCompletion`/`GroqCallResponse` the claims
are about. -/
structure GroqCallResponse where
  id : String
  model : String
  finish_reason : String
  message : GroqChoiceMessage
deriving DecidableEq, Repr

/-- `GroqStream.construct_call_response` (`groq/stream.py`, lines 56-95):
raises when `self.message_param is None` (the stream was not consumed),
else assembles the completion with the selected finish reason and the
message rebuilt from the stored message param. -/
def construct_call_response (s : GroqStreamState) :
    Except StreamError GroqCallResponse :=
  match s.message_param with
  | none => .error .emptyStream
  | some mp =>
      .ok { id := s.id.getD "",
            model := s.model,
            finish_reason := selectFinishReason (s.finish_reasons.map FinishReason.toStr),
            message := { role := mp.role,
                         content := mp.content,
                         tool_calls := mp.tool_calls.getD [] } }

/-- Modelled from the spec: `calculate_cost` from `groq/_utils` (not under
the available sources) is a pure function of the model name and the token
counts, reading per-token prices from a static price table; an unknown
model or absent token counts yield no cost. -/
def priceTable (model : String) : Option (ℚ × ℚ) :=
  if model = "llama3-8b-8192" then some (5 / 100000000, 8 / 100000000)
  else if model = "mixtral-8x7b-32768" then some (24 / 100000000, 24 / 100000000)
  else none

/-- Modelled from the spec: the cost computation of `calculate_cost`. -/
def calculate_cost (input_tokens output_tokens : Option Nat) (model : String) :
    Option ℚ :=
  match input_tokens, output_tokens, priceTable model with
  | some i, some o, some (pi, po) => some (pi * i + po * o)
  | _, _, _ => none

/-- The `GroqStream.cost` property (`groq/stream.py`, lines 38-41):
`calculate_cost(self.input_tokens, self.output_tokens, self.model)`. -/
def groqCost (s : GroqStreamState) : Option ℚ :=
  calculate_cost s.input_tokens s.output_tokens s.model

/-- The ordered concatenation of the name fragments of a delta list. -/
def fragsName : List ToolCallDelta → String
  | [] => ""
  | d :: ds => d.nameFragment.getD "" ++ fragsName ds

/-- The ordered concatenation of the argument fragments of a delta list. -/
def fragsArgs : List ToolCallDelta → String
  | [] => ""
  | d :: ds => d.argsFragment.getD "" ++ fragsArgs ds

/-- The first id carried by a delta list, if any (first write wins). -/
def firstId : List ToolCallDelta → Option String
  | [] => none
  | d :: ds =>
      match d.id with
      | some x => some x
      | none => firstId ds

/-- The last value carried by a list of optional values, if any: the tail's
last carried value wins over the head. -/
def lastCarried {α : Type} : List (Option α) → Option α
  | [] => none
  | o :: l =>
      match lastCarried l with
      | some v => some v
      | none => o

/-- Last-write-wins combination: the last carried value of the list, or the
stored default when no element carries one. -/
def combineWrite {α : Type} (dflt : Option α) (l : List (Option α)) : Option α :=
  match lastCarried l with
  | some v => some v
  | none => dflt

/-- The Groq stream state before any chunk has been consumed: no message
param (it is only assigned once the stream is exhausted), no finish
reasons, no token counts, no cost. -/
def groqInitState (model : String) : GroqStreamState :=
  { message_param := none, finish_reasons := [], input_tokens := none,
    output_tokens := none, model := model, id := none, cost := none }

theorem consumeAll_nil (s : BaseStreamState) : consumeAll s [] = s := rfl

theorem consumeAll_cons (s : BaseStreamState) (c : Chunk) (cs : List Chunk) :
    consumeAll s (c :: cs) = consumeAll (consumeChunk s c) cs := rfl

theorem consumeAll_append (s : BaseStreamState) (l₁ l₂ : List Chunk) :
    consumeAll s (l₁ ++ l₂) = consumeAll (consumeAll s l₁) l₂ :=
  List.foldl_append consumeChunk s l₁ l₂

theorem consumeAll_content (s : BaseStreamState) (chunks : List Chunk) :
    (consumeAll s chunks).content = s.content ++ contentConcat chunks := by
  induction chunks generalizing s with
  | nil => simp [consumeAll, contentConcat]
  | cons c cs ih =>
      rw [consumeAll_cons, ih]
      simp [consumeChunk, contentConcat, String.append_assoc]

theorem consumeAll_message_param (s : BaseStreamState) (chunks : List Chunk) :
    (consumeAll s chunks).message_param = s.message_param := by
  induction chunks generalizing s with
  | nil => rfl
  | cons c cs ih => rw [consumeAll_cons, ih]; rfl

theorem applyDeltas_same_index (i : Nat) (s : ToolCallSlot)
    (ds : List ToolCallDelta) (h : ∀ d ∈ ds, d.index = i) :
    applyDeltas [(i, s)] ds =
      [(i, { id := match s.id with
               | some x => some x
               | none => firstId ds,
             name := s.name ++ fragsName ds,
             argumentsBuffer := s.argumentsBuffer ++ fragsArgs ds })] := by
  induction ds generalizing s with
  | nil =>
      simp only [applyDeltas, List.foldl_nil, fragsName, fragsArgs, firstId]
      cases s with
      | mk id name argumentsBuffer =>
          cases id <;> simp [String.append_empty]
  | cons d rest ih =>
      have hd : i = d.index := (h d (by simp)).symm
      have hrest : ∀ x ∈ rest, x.index = i := fun x hx => h x (by simp [hx])
      show applyDeltas (applyDelta [(i, s)] d) rest = _
      rw [show applyDelta [(i, s)] d = [(i, updateSlot s d)] by
        simp [applyDelta, hd]]
      rw [ih (updateSlot s d) hrest]
      cases hsid : s.id <;> cases hdid : d.id <;>
        simp [updateSlot, hsid, hdid, fragsName, fragsArgs, firstId,
          String.append_assoc]

theorem keys_applyDelta (slots : List (Nat × ToolCallSlot)) (d : ToolCallDelta) :
    (applyDelta slots d).map Prod.fst =
      if d.index ∈ slots.map Prod.fst then slots.map Prod.fst
      else slots.map Prod.fst ++ [d.index] := by
  induction slots with
  | nil => simp [applyDelta]
  | cons p rest ih =>
      obtain ⟨i, s⟩ := p
      by_cases hi : i = d.index
      · simp [applyDelta, hi]
      · by_cases hm : d.index ∈ rest.map Prod.fst
        · simp [applyDelta, hi, ih, hm, Ne.symm hi]
        · simp [applyDelta, hi, ih, hm, Ne.symm hi]

theorem firstSeenAux_congr (l : List Nat) :
    ∀ seen₁ seen₂, (∀ x, x ∈ seen₁ ↔ x ∈ seen₂) →
      firstSeenAux seen₁ l = firstSeenAux seen₂ l := by
  induction l with
  | nil => intro s₁ s₂ _; rfl
  | cons i rest ih =>
      intro s₁ s₂ hmem
      by_cases hi : i ∈ s₁
      · simp [firstSeenAux, hi, (hmem i).mp hi]
        exact ih s₁ s₂ hmem
      · have hi₂ : i ∉ s₂ := fun hh => hi ((hmem i).mpr hh)
        simp only [firstSeenAux, if_neg hi, if_neg hi₂]
        rw [ih (i :: s₁) (i :: s₂) (fun x => by simp [hmem x])]

theorem keys_applyDeltas (ds : List ToolCallDelta) :
    ∀ slots : List (Nat × ToolCallSlot),
      (applyDeltas slots ds).map Prod.fst =
        slots.map Prod.fst ++
          firstSeenAux (slots.map Prod.fst) (ds.map ToolCallDelta.index) := by
  induction ds with
  | nil => intro slots; simp [applyDeltas, firstSeenAux]
  | cons d rest ih =>
      intro slots
      show (applyDeltas (applyDelta slots d) rest).map Prod.fst = _
      rw [ih (applyDelta slots d), keys_applyDelta]
      by_cases hm : d.index ∈ slots.map Prod.fst
      · simp only [if_pos hm, List.map_cons, firstSeenAux, if_pos hm]
      · simp only [if_neg hm, List.map_cons, firstSeenAux, if_neg hm]
        rw [firstSeenAux_congr _ (slots.map Prod.fst ++ [d.index])
          (d.index :: slots.map Prod.fst) (fun x => by simp; tauto)]
        simp [List.append_assoc]

theorem combineWrite_cons {α : Type} (dflt o : Option α) (l : List (Option α)) :
    combineWrite dflt (o :: l) =
      combineWrite (match o with | some v => some v | none => dflt) l := by
  cases h : lastCarried l <;> cases o <;> simp [combineWrite, lastCarried, h]

theorem cost_lastWrite (chunks : List Chunk) :
    ∀ s : BaseStreamState,
      (consumeAll s chunks).cost = combineWrite s.cost (chunks.map Chunk.cost) := by
  induction chunks with
  | nil => intro s; simp [consumeAll, combineWrite, lastCarried]
  | cons c rest ih =>
      intro s
      rw [consumeAll_cons, ih, List.map_cons, combineWrite_cons]
      cases hc : c.cost <;> simp [consumeChunk, hc]

theorem usage_lastWrite (chunks : List Chunk) :
    ∀ t : Option Nat × Option Nat,
      consumeUsageAll t chunks =
        (combineWrite t.1 (chunks.map fun c => c.usage.map Prod.fst),
         combineWrite t.2 (chunks.map fun c => c.usage.map Prod.snd)) := by
  induction chunks with
  | nil => intro t; simp [consumeUsageAll, combineWrite, lastCarried]
  | cons c rest ih =>
      intro t
      show consumeUsageAll (consumeUsage t c) rest = _
      rw [ih (consumeUsage t c), List.map_cons, List.map_cons,
        combineWrite_cons, combineWrite_cons]
      cases hu : c.usage with
      | none => simp [consumeUsage, hu]
      | some p => obtain ⟨iT, oT⟩ := p; simp [consumeUsage, hu]

/-- If every chunk of a list has an empty content delta, the concatenation
of the deltas is empty. -/
theorem contentConcat_empty :
    ∀ chunks : List Chunk, (∀ c ∈ chunks, c.content = "") →
      contentConcat chunks = ""
  | [], _ => rfl
  | c :: rest, h => by
      simp [contentConcat, h c (by simp),
        contentConcat_empty rest (fun x hx => h x (by simp [hx]))]

/-- C1: after `BaseStream.__iter__` is fully consumed, the assembled
assistant message's content equals the ordered concatenation of every
chunk's content delta (empty deltas contribute nothing), and the empty
chunk sequence yields empty content. -/
theorem c1_content_is_delta_concatenation (chunks : List Chunk) :
    (runIter false chunks).message_param =
      some { role := "assistant", content := some (contentConcat chunks),
             message := none } ∧
    (runIter false []).message_param =
      some { role := "assistant", content := some "", message := none } := by
  constructor
  · simp [runIter, finalizeMessageParam, consumeAll_content, initState]
  · rfl

/-- C2: for a non-empty delta sequence all targeting one slot index, the
final table holds exactly one slot at that index whose name and arguments
buffer are the ordered concatenations of all name and argument fragments,
with the first id seen retained. -/
theorem c2_same_slot_fragment_concatenation (ds : List ToolCallDelta) (i : Nat)
    (hne : ds ≠ []) (h : ∀ d ∈ ds, d.index = i) :
    applyDeltas [] ds =
      [(i, { id := firstId ds, name := fragsName ds,
             argumentsBuffer := fragsArgs ds })] := by
  cases ds with
  | nil => cases hne rfl
  | cons d rest =>
      have hd : d.index = i := h d (by simp)
      have hrest : ∀ x ∈ rest, x.index = i := fun x hx => h x (by simp [hx])
      show applyDeltas (applyDelta [] d) rest = _
      rw [show applyDelta [] d = [(i, newSlot d)] by simp [applyDelta, hd]]
      rw [applyDeltas_same_index i (newSlot d) rest hrest]
      cases hdid : d.id <;>
        simp [newSlot, firstId, fragsName, fragsArgs, hdid]

/-- Witness for C2: the spec scenario — fragments `get_` then `weather`
with argument pieces splitting a small JSON object produce one tool call
named `get_weather` with the reassembled arguments. -/
theorem c2_witness :
    (([⟨0, some "call_1", some "get_", none⟩,
       ⟨0, none, some "weather", some "\x7b\"city\":"⟩,
       ⟨0, none, none, some "\"NYC\"\x7d"⟩] : List ToolCallDelta) ≠ []) ∧
    applyDeltas []
      [⟨0, some "call_1", some "get_", none⟩,
       ⟨0, none, some "weather", some "\x7b\"city\":"⟩,
       ⟨0, none, none, some "\"NYC\"\x7d"⟩] =
      [(0, { id := some "call_1", name := "get_weather",
             argumentsBuffer := "\x7b\"city\":\"NYC\"\x7d" })] := by
  refine ⟨by decide, ?_⟩
  rw [c2_same_slot_fragment_concatenation
    [⟨0, some "call_1", some "get_", none⟩,
     ⟨0, none, some "weather", some "\x7b\"city\":"⟩,
     ⟨0, none, none, some "\"NYC\"\x7d"⟩] 0 (by decide) (by decide)]
  rfl

/-- C3: invoking the final-response build on a stream state that has
consumed zero chunks (so `message_param` is still unset) fails with the
empty-stream error instead of returning a response. -/
theorem c3_build_before_consumption_fails (model : String) :
    construct_call_response (groqInitState model) =
      Except.error StreamError.emptyStream := rfl

/-- Counterexample to C4: `BaseStream.__iter__` assigns
`self.user_message_param = chunk.user_message_param` on every chunk, so a
second chunk carrying a different user message overwrites the first one —
first write does not win. -/
theorem c4_counterexample :
    (consumeAll initState
      [{ Chunk.empty with user_message_param := some "u1" },
       { Chunk.empty with user_message_param := some "u2" }]).user_message_param =
      some "u2" ∧ (some "u2" : Option String) ≠ some "u1" :=
  ⟨rfl, by decide⟩

/-- C4 amended: the accumulator overwrites the recorded user message on
every consume step, so after consumption it equals the last chunk's user
message (absent when the last chunk carried none) — last write wins. -/
theorem c4_amended_last_write_wins (s : BaseStreamState) (chunks : List Chunk)
    (c : Chunk) :
    (consumeAll s (chunks ++ [c])).user_message_param = c.user_message_param := by
  rw [consumeAll_append]; rfl

/-- C5: after the first k chunks are consumed — in particular when
consumption stops early there — the accumulator state has content equal to
the concatenation of those k deltas, and the final message has not been
built (`message_param` is still unset, so the build step is never
auto-invoked on a partial stream). -/
theorem c5_state_after_each_chunk (chunks : List Chunk) (k : Nat)
    (h : k ≤ chunks.length) :
    (consumeAll initState (chunks.take k)).content =
      contentConcat (chunks.take k) ∧
    (consumeAll initState (chunks.take k)).message_param = none := by
  constructor
  · rw [consumeAll_content]; simp [initState]
  · rw [consumeAll_message_param]; rfl

/-- Witness for C5: a three-chunk stream that fails after two chunks
leaves content `"Hel" ++ "lo"` accumulated and no final message built. -/
theorem c5_witness :
    2 ≤ ([{ Chunk.empty with content := "Hel" },
          { Chunk.empty with content := "lo" },
          { Chunk.empty with content := "!" }] : List Chunk).length ∧
    ((consumeAll initState
        (([{ Chunk.empty with content := "Hel" },
           { Chunk.empty with content := "lo" },
           { Chunk.empty with content := "!" }] : List Chunk).take 2)).content =
      contentConcat
        (([{ Chunk.empty with content := "Hel" },
           { Chunk.empty with content := "lo" },
           { Chunk.empty with content := "!" }] : List Chunk).take 2) ∧
     (consumeAll initState
        (([{ Chunk.empty with content := "Hel" },
           { Chunk.empty with content := "lo" },
           { Chunk.empty with content := "!" }] : List Chunk).take 2)).message_param =
      none) :=
  ⟨by decide, c5_state_after_each_chunk _ 2 (by decide)⟩

/-- Counterexample to C6: on an empty stream (empty accumulated content, no
tool-call slots anywhere in this path) `BaseStream.__iter__` assembles a
message whose content key holds the empty string, not `None`/absent. -/
theorem c6_counterexample :
    (runIter false []).message_param =
      some { role := "assistant", content := some "", message := none } ∧
    (some "" : Option String) ≠ none :=
  ⟨rfl, by decide⟩

/-- C6 amended: when the accumulated content is empty, the assembled
message's content field is the empty string, not `None`/absent; a `None`
content arises only when the Groq message constructor is explicitly given
no content (its default argument). -/
theorem c6_amended_empty_content_is_empty_string (chunks : List Chunk)
    (h : ∀ c ∈ chunks, c.content = "") :
    (runIter false chunks).message_param =
      some { role := "assistant", content := some "", message := none } ∧
    (construct_message_param none none).content = none := by
  constructor
  · simp [runIter, finalizeMessageParam, consumeAll_content, initState,
      contentConcat_empty chunks h]
  · rfl

/-- Witness for C6 amended: a single chunk with empty content delta yields
a message with content equal to the empty string. -/
theorem c6_amended_witness :
    (∀ c ∈ ([Chunk.empty] : List Chunk), c.content = "") ∧
    ((runIter false [Chunk.empty]).message_param =
      some { role := "assistant", content := some "", message := none } ∧
     (construct_message_param none none).content = none) :=
  ⟨by decide, c6_amended_empty_content_is_empty_string [Chunk.empty] (by decide)⟩

/-- C7: on a consumed stream, the finish reason exposed on the final
response is the first accumulated finish reason when the list is
non-empty, and defaults to `"stop"` when it is empty (the source's extra
truthiness guard never fires, since every finish-reason literal is a
non-empty string). -/
theorem c7_finish_reason_head_or_stop (s : GroqStreamState)
    (mp : GroqMessageParam) (h : s.message_param = some mp) :
    ∃ r, construct_call_response s = Except.ok r ∧
      r.finish_reason = (match s.finish_reasons with
        | [] => "stop"
        | f :: _ => f.toStr) := by
  refine ⟨{ id := s.id.getD "", model := s.model,
            finish_reason :=
              selectFinishReason (s.finish_reasons.map FinishReason.toStr),
            message := { role := mp.role, content := mp.content,
                         tool_calls := mp.tool_calls.getD [] } }, ?_, ?_⟩
  · simp [construct_call_response, h]
  · cases s.finish_reasons with
    | nil => rfl
    | cons f rest => cases f <;> rfl

/-- Witness for C7: a consumed stream whose accumulated finish reasons are
`[tool_calls, stop]` exposes `"tool_calls"`. -/
theorem c7_witness :
    ({ message_param := some (construct_message_param none (some "hi")),
       finish_reasons := [FinishReason.tool_calls, FinishReason.stop],
       input_tokens := some 3, output_tokens := some 2, model := "m",
       id := none, cost := none } : GroqStreamState).message_param =
      some (construct_message_param none (some "hi")) ∧
    (∃ r, construct_call_response
        { message_param := some (construct_message_param none (some "hi")),
          finish_reasons := [FinishReason.tool_calls, FinishReason.stop],
          input_tokens := some 3, output_tokens := some 2, model := "m",
          id := none, cost := none } = Except.ok r ∧
      r.finish_reason =
        (match [FinishReason.tool_calls, FinishReason.stop] with
          | [] => "stop"
          | f :: _ => f.toStr)) :=
  ⟨rfl, c7_finish_reason_head_or_stop _ (construct_message_param none (some "hi")) rfl⟩

/-- C8: cost and usage accumulation is last-write-wins — the final stored
cost (resp. token counts) is the last chunk-carried value, with chunks
carrying none leaving the stored value unchanged; in particular usage
`(10, 5)` then `(10, 8)` ends with 8 output tokens and 10 input tokens. -/
theorem c8_cost_usage_last_write_wins (chunks : List Chunk)
    (s : BaseStreamState) (t : Option Nat × Option Nat) :
    (consumeAll s chunks).cost = combineWrite s.cost (chunks.map Chunk.cost) ∧
    consumeUsageAll t chunks =
      (combineWrite t.1 (chunks.map fun c => c.usage.map Prod.fst),
       combineWrite t.2 (chunks.map fun c => c.usage.map Prod.snd)) ∧
    consumeUsageAll (none, none)
      [{ Chunk.empty with usage := some (10, 5) },
       { Chunk.empty with usage := some (10, 8) }] = (some 10, some 8) :=
  ⟨cost_lastWrite chunks s, usage_lastWrite chunks t, rfl⟩

/-- C9: the slot table built from any delta sequence lists slots in
first-seen-index order, independent of the numeric index values; deltas
whose indices are first seen as `[2, 0]` yield a final response whose
tool calls appear in the order slot 2, slot 0. -/
theorem c9_slot_order_is_first_seen (ds : List ToolCallDelta) :
    (applyDeltas [] ds).map Prod.fst =
      firstSeen (ds.map ToolCallDelta.index) ∧
    ((construct_call_response
        { message_param := some (construct_message_param
            (some (applyDeltas []
              [⟨2, none, some "a", none⟩, ⟨0, none, some "b", none⟩])) none),
          finish_reasons := [FinishReason.stop], input_tokens := none,
          output_tokens := none, model := "m", id := none,
          cost := none }).toOption.map
      fun r => r.message.tool_calls.map Prod.fst) = some [2, 0] := by
  constructor
  · have hk := keys_applyDeltas ds []
    simpa [firstSeen] using hk
  · rfl

/-- C10: the `GroqStream.cost` property is `calculate_cost` applied to the
accumulated token counts and model — whatever per-chunk cost value was
accumulated onto the stream is ignored — so two streams agreeing on final
token counts and model report equal cost. -/
theorem c10_cost_is_calculate_cost (s t : GroqStreamState) (c : Option ℚ)
    (h₁ : s.input_tokens = t.input_tokens)
    (h₂ : s.output_tokens = t.output_tokens) (h₃ : s.model = t.model) :
    groqCost { s with cost := c } =
      calculate_cost s.input_tokens s.output_tokens s.model ∧
    groqCost s = groqCost t :=
  ⟨rfl, by simp [groqCost, h₁, h₂, h₃]⟩

/-- Witness for C10: two consumed streams with equal token counts and
model but different accumulated per-chunk cost report the same cost. -/
theorem c10_witness :
    ({ message_param := none, finish_reasons := [], input_tokens := some 10,
       output_tokens := some 5, model := "llama3-8b-8192", id := none,
       cost := some 99 } : GroqStreamState).input_tokens =
      ({ message_param := none, finish_reasons := [], input_tokens := some 10,
         output_tokens := some 5, model := "llama3-8b-8192", id := none,
         cost := none } : GroqStreamState).input_tokens ∧
    (groqCost { message_param := none, finish_reasons := [],
                input_tokens := some 10, output_tokens := some 5,
                model := "llama3-8b-8192", id := none, cost := some 99 } =
      groqCost { message_param := none, finish_reasons := [],
                 input_tokens := some 10, output_tokens := some 5,
                 model := "llama3-8b-8192", id := none, cost := none }) :=
  ⟨rfl,
    (c10_cost_is_calculate_cost
      { message_param := none, finish_reasons := [], input_tokens := some 10,
        output_tokens := some 5, model := "llama3-8b-8192", id := none,
        cost := some 99 }
      { message_param := none, finish_reasons := [], input_tokens := some 10,
        output_tokens := some 5, model := "llama3-8b-8192", id := none,
        cost := none } none rfl rfl rfl).2⟩

end Mirascope
